import Mathlib

/-!
Verification development for the commit-tree ingestion pipeline of
`pauladam94/HyperAST` (files `cvs/git/src/preprocessed.rs` and
`cvs/git/src/cpp.rs`).

The embedding models git object identifiers as natural numbers, the node
store as an append-only list of node records, and the label store as an
append-only list of strings.  The external collaborators (the per-language
parsers, the POM parser, the `PartialAnalysis` resolver and the commit
enumeration) are abstracted into a `Gens` bundle of deterministic functions,
as the specification directs.  The structural hashes of `hyper_ast::hashed`
are pure functions of the `(type, label, children)` content and only speed
up the store lookup (collisions are resolved by the equality callback), so
the store lookup is modelled as a first-match search with that equality
predicate.  A partial analysis is abstracted by its reference count
(a natural number); merging is modelled as addition.

The explicit-stack post-order loops of `fast_fwd`, `handle_maven_module`
and `handle_java_src` are rendered as fuel-indexed recursive functions;
`Option.none` models a Rust panic (a failed `assert!`, `unwrap` or `todo!`)
or fuel exhaustion, and every theorem below that exercises the traversal
does so on runs that return `some`.
-/

namespace HyperAST

/-- Label identifiers are indices into the label store. -/
abbrev LabelId := Nat

/-- Node identifiers are indices into the append-only node store. -/
abbrev NodeId := Nat

/-- Relative paths (Maven pending paths), as lists of components. -/
abbrev Path := List String

/-- Modelled from the spec: the label store (§4.2) is an interning table,
`get_or_insert` returns the existing index or appends. It lives in
`hyper_ast`, outside the provided sources. -/
def labelGetOrInsert (ls : List String) (s : String) : List String × LabelId :=
  match ls.findIdx? (fun x => x == s) with
  | some i => (ls, i)
  | none => (ls ++ [s], ls.length)

/-- Node type tags: `MavenDirectory` and `Directory` are the two tags used by
the directory folds in `preprocessed.rs`; `parsed k` stands for any node type
created by the external per-file tree generators. -/
inductive Ty where
  | MavenDirectory : Ty
  | Directory : Ty
  | parsed : Nat → Ty
deriving DecidableEq

/-- The inline bloom-filter variants of `rusted_gumtree_gen_ts_java::filter`:
`BloomSize::None`, the widths `u16 .. [u64; 32]`, and `BloomSize::Much`. -/
inductive BloomKind where
  | none : BloomKind
  | b16 : BloomKind
  | b32 : BloomKind
  | b64 : BloomKind
  | b64x2 : BloomKind
  | b64x4 : BloomKind
  | b64x8 : BloomKind
  | b64x16 : BloomKind
  | b64x32 : BloomKind
  | much : BloomKind
deriving DecidableEq

/-- Subtree metrics (`SubTreeMetrics`): size and height.  The three syntax
hashes are omitted: they are pure functions of the node content and serve
only to bucket the store lookup, which is modelled content-wise below. -/
structure Metrics where
  size : Nat
  height : Nat
deriving DecidableEq

/-- Modelled from the spec: `SubTreeMetrics::acc` (in `hyper_ast`, outside
src) accumulates a child: sizes add, heights max (§3: a directory's size is
1 + sum of children sizes, height is 1 + max child height). -/
def Metrics.acc (m c : Metrics) : Metrics :=
  { size := m.size + c.size, height := max m.height c.height }

/-- The `size + 1` / `height + 1` step applied at every directory fold. -/
def Metrics.bump (m : Metrics) : Metrics :=
  { size := m.size + 1, height := m.height + 1 }

/-- A node record of the node store.  `childrenNames`/`children` are `none`
when the corresponding `CS(..)` component was not part of the inserted
tuple (the zero-children `Directory` insertion in `handle_java_src` omits
both), and `some` otherwise. -/
structure StoredNode where
  ty : Ty
  label : LabelId
  childrenNames : Option (List LabelId)
  children : Option (List NodeId)
  bloom : BloomKind
deriving DecidableEq

/-- The equality callback built at each directory fold (`preprocessed.rs`
lines 337-353, 707-723, 980-996): same type tag, same label identifier, and
the node's children component must be present and equal to the
accumulator's children vector. -/
def entryEq (t : Ty) (label : LabelId) (cs : List NodeId) (n : StoredNode) : Bool :=
  decide (n.ty = t) && decide (n.label = label) && decide (n.children = some cs)

/-- Modelled from the spec: `prepare_insertion` (node store, §4.1, in
`hyper_ast` outside src) looks for an existing entry satisfying the
equality callback; the hash only narrows the search, so an occupied lookup
is the first content match. -/
def prepareInsertion (store : List StoredNode) (t : Ty) (label : LabelId)
    (cs : List NodeId) : Option NodeId :=
  store.findIdx? (entryEq t label cs)

/-- A `Local` record: compressed node id, metrics, and the analysis
abstracted by its reference count (an absent analysis counts 0). -/
structure Local where
  compressed_node : NodeId
  metrics : Metrics
  ana : Nat
deriving DecidableEq

/-- The `MD` metadata record: metrics plus resolved analysis. -/
structure MD where
  metrics : Metrics
  ana : Nat
deriving DecidableEq

/-- Modelled from the spec: the `POM` record produced by the POM handler
(`maven.rs`, outside src): a node with metrics and analysis plus the
declared sub-module and source/test source directory paths that seed the
parent accumulator's pending sets (§4.3, glossary "Pending paths"). -/
structure POM where
  node : NodeId
  metrics : Metrics
  ana : Nat
  submodules : List Path
  mainDirs : List Path
  testDirs : List Path
deriving DecidableEq

/-- A git tree entry: a blob (object id, file name, content, and whether the
content is valid UTF-8) or a subtree (object id, directory name, entries).
Object ids stand for git's content addresses. -/
inductive GEntry where
  | blobE : Nat → String → String → Bool → GEntry
  | treeE : Nat → String → List GEntry → GEntry

/-- The predicate of `prepare_dir_exploration`'s `position` search: a blob
entry named `pom.xml`. -/
def isPomBlob : GEntry → Bool
  | .blobE _ n _ _ => n == "pom.xml"
  | _ => false

/-- `Vec::swap` on the entry vector (used as `swap(0, p)`). -/
def listSwap (l : List GEntry) (i j : Nat) : List GEntry :=
  match l.get? i, l.get? j with
  | some a, some b => (l.set i b).set j a
  | _, _ => l

/-- `prepare_dir_exploration` (`preprocessed.rs` lines 235-251 and the
verbatim copy at 485-501): collect the tree's entries; when the descent
path is exhausted, look for a blob named `pom.xml`; if found, swap it to
position 0 and reverse the vector; otherwise return the entries as they
are. -/
def prepare_dir_exploration (es : List GEntry) (dirPathEmpty : Bool) : List GEntry :=
  if dirPathEmpty then
    match es.findIdx? isPomBlob with
    | some p => (listSwap es 0 p).reverse
    | none => es
  else es

/-- The order in which the stack loop actually visits the prepared entries:
`Vec::pop` takes the last element, so the visit order is the reverse of the
prepared vector. -/
def exploreOrder (es : List GEntry) (dirPathEmpty : Bool) : List GEntry :=
  (prepare_dir_exploration es dirPathEmpty).reverse

/-- The byte-slice `ends_with` used on file names, modelled on the
character list. -/
def strEndsWith (s suff : String) : Bool :=
  suff.data.isSuffixOf s.data

/-- `is_handled` (`preprocessed.rs` lines 58-60): file names ending in
`.java` or `.xml`. -/
def is_handled (name : String) : Bool :=
  strEndsWith name ".java" || strEndsWith name ".xml"

/-- `drain_filter_strip` (`preprocessed.rs` lines 1606-1627): remove from
the optional pending set every path whose first component equals `name`
and return those paths with the component stripped. -/
def drainFilterStrip (v : Option (List Path)) (nm : String) :
    Option (List Path) × List Path :=
  match v with
  | none => (none, [])
  | some ps =>
      (some (ps.filter (fun p => !(p.head? == some nm))),
       (ps.filter (fun p => p.head? == some nm)).map (fun p => p.tail))

/-- Modelled from the spec: `JavaAcc` (`java.rs`, outside src) — plain
directory accumulator inside a source root (§3, §4.3): children ids and
names, metrics, analysis and the `skiped_ana` flag (the source's spelling). -/
structure JavaAcc where
  name : String
  children : List NodeId
  childrenNames : List LabelId
  metrics : Metrics
  ana : Nat
  skiped_ana : Bool
deriving DecidableEq

/-- Modelled from the spec: `JavaAcc::new` starts with no children and
`skiped_ana = false`. -/
def JavaAcc.new (name : String) : JavaAcc :=
  { name := name, children := [], childrenNames := [], metrics := ⟨0, 0⟩,
    ana := 0, skiped_ana := false }

/-- Modelled from the spec: `JavaAcc::push` for a file child (mirrors the
C++ analogue commented in `cpp.rs` lines 73-85): append the child's node id
and name, accumulate metrics; merge the analysis when its reference count
is below `MAX_REFS` and the accumulator is not already skipped, otherwise
mark the accumulator skipped. -/
def JavaAcc.push (acc : JavaAcc) (nm : LabelId) (c : Local) (mx : Nat) : JavaAcc :=
  let base := { acc with
    children := acc.children ++ [c.compressed_node],
    childrenNames := acc.childrenNames ++ [nm],
    metrics := acc.metrics.acc c.metrics }
  if c.ana < mx ∧ acc.skiped_ana = false then { base with ana := acc.ana + c.ana }
  else { base with skiped_ana := true }

/-- Modelled from the spec: `JavaAcc::push_dir` (§4.3) — propagate
`skiped_ana := skiped_ana ∨ child_skipped ∨ (child refs ≥ MAX_REFS)` and
suppress the analysis merge once skipped. -/
def JavaAcc.push_dir (acc : JavaAcc) (nm : LabelId) (c : Local) (sk : Bool)
    (mx : Nat) : JavaAcc :=
  let sk' := acc.skiped_ana || sk || decide (mx ≤ c.ana)
  { acc with
    children := acc.children ++ [c.compressed_node],
    childrenNames := acc.childrenNames ++ [nm],
    metrics := acc.metrics.acc c.metrics,
    ana := if sk' then acc.ana else acc.ana + c.ana,
    skiped_ana := sk' }

/-- The `assert!(!w.children_names.contains(&name))` guard that precedes
every `push` call site in `preprocessed.rs`; a duplicate name panics. -/
def JavaAcc.pushG (acc : JavaAcc) (nm : LabelId) (c : Local) (mx : Nat) :
    Option JavaAcc :=
  if nm ∈ acc.childrenNames then none else some (acc.push nm c mx)

/-- Guarded `push_dir` (assert then push, as at every call site). -/
def JavaAcc.push_dirG (acc : JavaAcc) (nm : LabelId) (c : Local) (sk : Bool)
    (mx : Nat) : Option JavaAcc :=
  if nm ∈ acc.childrenNames then none else some (acc.push_dir nm c sk mx)

/-- Modelled from the spec: `MavenModuleAcc` (`maven.rs`, outside src) —
directory accumulator plus the three optional pending path sets (§3,
§4.3). -/
structure MavenModuleAcc where
  name : String
  children : List NodeId
  childrenNames : List LabelId
  metrics : Metrics
  ana : Nat
  subModules : Option (List Path)
  mainDirs : Option (List Path)
  testDirs : Option (List Path)
deriving DecidableEq

/-- Modelled from the spec: `MavenModuleAcc::new` — fresh accumulator with
no pending paths. -/
def MavenModuleAcc.new (name : String) : MavenModuleAcc :=
  { name := name, children := [], childrenNames := [], metrics := ⟨0, 0⟩,
    ana := 0, subModules := none, mainDirs := none, testDirs := none }

/-- Modelled from the spec: `MavenModuleAcc::with_content` — accumulator
seeded with pending paths inherited from an ancestor (§4.3). -/
def MavenModuleAcc.with_content (name : String) (subs mains tests : List Path) :
    MavenModuleAcc :=
  { MavenModuleAcc.new name with
    subModules := some subs, mainDirs := some mains, testDirs := some tests }

/-- Modelled from the spec: `push_submodule` — attach a folded sub-module
(node id + metadata) to the accumulator. -/
def MavenModuleAcc.push_submodule (acc : MavenModuleAcc) (nm : LabelId)
    (c : NodeId × MD) : MavenModuleAcc :=
  { acc with
    children := acc.children ++ [c.1],
    childrenNames := acc.childrenNames ++ [nm],
    metrics := acc.metrics.acc c.2.metrics,
    ana := acc.ana + c.2.ana }

/-- Modelled from the spec: `push_source_directory`. -/
def MavenModuleAcc.push_source_directory (acc : MavenModuleAcc) (nm : LabelId)
    (c : Local) : MavenModuleAcc :=
  { acc with
    children := acc.children ++ [c.compressed_node],
    childrenNames := acc.childrenNames ++ [nm],
    metrics := acc.metrics.acc c.metrics,
    ana := acc.ana + c.ana }

/-- Modelled from the spec: `push_test_source_directory`. -/
def MavenModuleAcc.push_test_source_directory (acc : MavenModuleAcc)
    (nm : LabelId) (c : Local) : MavenModuleAcc :=
  acc.push_source_directory nm c

/-- Merging a POM's declared paths into an optional pending set. -/
def mergePending (v : Option (List Path)) (ps : List Path) : Option (List Path) :=
  match v with
  | none => some ps
  | some q => some (q ++ ps)

/-- Modelled from the spec: `push_pom` — attach the POM node and seed the
pending sub-module / main / test source directory sets from the POM's
declarations (glossary "Pending paths"). -/
def MavenModuleAcc.push_pom (acc : MavenModuleAcc) (nm : LabelId) (p : POM) :
    MavenModuleAcc :=
  { acc with
    children := acc.children ++ [p.node],
    childrenNames := acc.childrenNames ++ [nm],
    metrics := acc.metrics.acc p.metrics,
    ana := acc.ana + p.ana,
    subModules := mergePending acc.subModules p.submodules,
    mainDirs := mergePending acc.mainDirs p.mainDirs,
    testDirs := mergePending acc.testDirs p.testDirs }

/-- Guarded `push_submodule` (assert at the call sites, e.g. lines 545, 829). -/
def MavenModuleAcc.push_submoduleG (acc : MavenModuleAcc) (nm : LabelId)
    (c : NodeId × MD) : Option MavenModuleAcc :=
  if nm ∈ acc.childrenNames then none else some (acc.push_submodule nm c)

/-- Guarded `push_source_directory` (assert at line 586). -/
def MavenModuleAcc.push_source_directoryG (acc : MavenModuleAcc) (nm : LabelId)
    (c : Local) : Option MavenModuleAcc :=
  if nm ∈ acc.childrenNames then none else some (acc.push_source_directory nm c)

/-- Guarded `push_test_source_directory`. -/
def MavenModuleAcc.push_test_source_directoryG (acc : MavenModuleAcc)
    (nm : LabelId) (c : Local) : Option MavenModuleAcc :=
  if nm ∈ acc.childrenNames then none else some (acc.push_test_source_directory nm c)

/-- Guarded `push_pom` (asserts at lines 662, 687). -/
def MavenModuleAcc.push_pomG (acc : MavenModuleAcc) (nm : LabelId) (p : POM) :
    Option MavenModuleAcc :=
  if nm ∈ acc.childrenNames then none else some (acc.push_pom nm p)

/-- `CppAcc` (`cpp.rs` lines 33-50): the C++ directory accumulator. -/
structure CppAcc where
  name : String
  children : List NodeId
  childrenNames : List LabelId
  metrics : Metrics
deriving DecidableEq

/-- `CppAcc::new` (`cpp.rs` lines 41-49). -/
def CppAcc.new (name : String) : CppAcc :=
  { name := name, children := [], childrenNames := [], metrics := ⟨0, 0⟩ }

/-- `CppAcc::push` (`cpp.rs` lines 86-95): append child id and name and
accumulate metrics; the `skiped_ana` argument is accepted but unused. -/
def CppAcc.push (acc : CppAcc) (nm : LabelId) (c : Local) (skiped : Bool) : CppAcc :=
  { acc with
    children := acc.children ++ [c.compressed_node],
    childrenNames := acc.childrenNames ++ [nm],
    metrics := acc.metrics.acc c.metrics }

/-- Modelled from the spec: the C++ traversal is absent from src; per §4.3
("Invariant: before `push`, assert the name is not already a child") its
push sites carry the same duplicate-name assertion as the Maven and Java
ones. -/
def CppAcc.pushG (acc : CppAcc) (nm : LabelId) (c : Local) (skiped : Bool) :
    Option CppAcc :=
  if nm ∈ acc.childrenNames then none else some (acc.push nm c skiped)

/-- The mutable stores shared with the parsers: label store and node store
(`SimpleStores`). -/
structure Stores where
  labels : List String
  store : List StoredNode
deriving DecidableEq

/-- The state of a `PreProcessedRepository` threaded through one ingestion:
stores plus the three cross-commit memo maps (`object_map`,
`object_map_pom`, `object_map_java`), keyed by git object id.  The
`commits` map is carried separately by `pre_process`, which is the only
function that touches it. -/
structure State where
  stores : Stores
  objectMap : List (Nat × (NodeId × MD))
  objectMapPom : List (Nat × POM)
  objectMapJava : List (Nat × (Local × Bool))
deriving DecidableEq

/-- Assoc-list lookup (BTreeMap `get`). -/
def lookupA {α : Type} (m : List (Nat × α)) (k : Nat) : Option α :=
  match m.find? (fun p => p.1 == k) with
  | some p => some p.2
  | none => none

/-- Assoc-list insert-or-replace (BTreeMap / HashMap `insert`). -/
def insertA {α : Type} : List (Nat × α) → Nat → α → List (Nat × α)
  | [], k, v => [(k, v)]
  | p :: rest, k, v => if p.1 == k then (k, v) :: rest else p :: insertA rest k v

/-- The empty repository state (`PreProcessedRepository::new`). -/
def state0 : State :=
  { stores := { labels := [], store := [] },
    objectMap := [], objectMapPom := [], objectMapJava := [] }

/-- The bundle of external collaborators: per-language parse-success
predicates (a tree-sitter parse depends only on the text), the tree
generators (which may append to the stores and return a `Local` / `POM`),
the `PartialAnalysis::resolve` effect on the reference count, the
`MAX_REFS` threshold and the `PROPAGATE_ERROR_ON_BAD_CST_NODE` policy flag
(both crate constants outside src). -/
structure Gens where
  javaOk : String → Bool
  javaGen : Stores → String → String → Stores × Local
  pomOk : String → Bool
  pomGen : Stores → String → String → Stores × POM
  cppOk : String → Bool
  cppGen : Stores → String → String → Stores × Local
  resolveAna : Nat → Nat
  maxRefs : Nat
  propagate : Bool

/-- `handle_cpp_file` (`cpp.rs` lines 12-31): try the tree-sitter parse; on
a bad CST, return an error when `PROPAGATE_ERROR_ON_BAD_CST_NODE` is set,
otherwise generate from the best-effort tree. -/
def handleCppFile (g : Gens) (st : Stores) (name text : String) :
    Option (Stores × Local) :=
  if g.cppOk text then some (g.cppGen st name text)
  else if g.propagate then none
  else some (g.cppGen st name text)

/-- Modelled from the spec: `handle_java_file` (`java.rs`, outside src) has
the same shape as `handle_cpp_file` (§4.4 failure semantics: bad CST either
propagates an error or keeps the best-effort tree). -/
def handleJavaFile (g : Gens) (st : Stores) (name text : String) :
    Option (Stores × Local) :=
  if g.javaOk text then some (g.javaGen st name text)
  else if g.propagate then none
  else some (g.javaGen st name text)

/-- Modelled from the spec: `handle_pom_file` (`maven.rs`, outside src)
returns a `Result` (§6: parsers return `Result<.., ParseError>`). -/
def handlePomFile (g : Gens) (st : Stores) (name text : String) :
    Option (Stores × POM) :=
  if g.pomOk text then some (g.pomGen st name text) else none

/-- The bloom-variant selection of the plain-directory fold in
`handle_java_src` (`preprocessed.rs` lines 1077-1114), for the at least one
child case: the match on the resolved reference count, whose first arm also
catches `skiped_ana` accumulators. -/
def javaDirBloom (skiped : Bool) (refs : Nat) : BloomKind :=
  if refs > 2048 ∨ skiped = true then .much
  else if refs > 1024 then .b64x32
  else if refs > 512 then .b64x32
  else if refs > 256 then .b64x16
  else if refs > 150 then .b64x8
  else if refs > 100 then .b64x4
  else if refs > 30 then .b64x2
  else if refs > 15 then .b64
  else if refs > 8 then .b32
  else if refs > 0 then .b16
  else .none

/-- The fold of a plain directory in `handle_java_src` (`preprocessed.rs`
lines 964-1144): intern the label, resolve the analysis when the reference
count is below `MAX_REFS`, look up the store with the equality callback;
on a vacant lookup insert — with no children component at all when the
accumulator has zero children (`BloomSize::None`), otherwise with both
`CS` components and the bloom variant from the reference count match;
bump the metrics, memoize under the tree's object id together with the
`skiped_ana` flag, and return the `Local`. -/
def javaSrcFold (g : Gens) (s : State) (oid : Nat) (acc : JavaAcc) :
    Option (State × Local × Bool) :=
  let lp := labelGetOrInsert s.stores.labels acc.name
  let ana1 := if acc.ana < g.maxRefs then g.resolveAna acc.ana else acc.ana
  let st := s.stores.store
  match prepareInsertion st .Directory lp.2 acc.children with
  | some nid =>
      let loc : Local := { compressed_node := nid, metrics := acc.metrics.bump, ana := ana1 }
      let s' : State := { s with
        stores := { labels := lp.1, store := st },
        objectMapJava := insertA s.objectMapJava oid (loc, acc.skiped_ana) }
      some (s', loc, acc.skiped_ana)
  | none =>
      match acc.children with
      | [] =>
          let node : StoredNode :=
            { ty := .Directory, label := lp.2, childrenNames := none,
              children := none, bloom := .none }
          let loc : Local := { compressed_node := st.length, metrics := acc.metrics.bump, ana := ana1 }
          let s' : State := { s with
            stores := { labels := lp.1, store := st ++ [node] },
            objectMapJava := insertA s.objectMapJava oid (loc, acc.skiped_ana) }
          some (s', loc, acc.skiped_ana)
      | _ :: _ =>
          if acc.childrenNames.length = acc.children.length then
            let node : StoredNode :=
              { ty := .Directory, label := lp.2, childrenNames := some acc.childrenNames,
                children := some acc.children, bloom := javaDirBloom acc.skiped_ana ana1 }
            let loc : Local := { compressed_node := st.length, metrics := acc.metrics.bump, ana := ana1 }
            let s' : State := { s with
              stores := { labels := lp.1, store := st ++ [node] },
              objectMapJava := insertA s.objectMapJava oid (loc, acc.skiped_ana) }
            some (s', loc, acc.skiped_ana)
          else none

/-- The fold of a Maven module frame (`preprocessed.rs` lines 693-832 in
`handle_maven_module`; lines 323-462 in `fast_fwd` are a verbatim copy):
intern the label, drain `..`-prefixed pending paths (any remaining one is
the fatal `todo!`), resolve the analysis unconditionally, look up the store
with the equality callback, on a vacant lookup insert a `MavenDirectory`
node that always carries both `CS` components and `BloomSize::Much`; bump
the metrics and memoize under the tree's object id in `object_map`. -/
def mavenFold (g : Gens) (s : State) (oid : Nat) (acc : MavenModuleAcc) :
    Option (State × (NodeId × MD)) :=
  let lp := labelGetOrInsert s.stores.labels acc.name
  let dotSubs := (drainFilterStrip acc.subModules "..").2
  let dotMains := (drainFilterStrip acc.mainDirs "..").2
  let dotTests := (drainFilterStrip acc.testDirs "..").2
  if dotSubs ≠ [] ∨ dotMains ≠ [] ∨ dotTests ≠ [] then none
  else
    let ana1 := g.resolveAna acc.ana
    let st := s.stores.store
    let md : MD := { metrics := acc.metrics.bump, ana := ana1 }
    match prepareInsertion st .MavenDirectory lp.2 acc.children with
    | some nid =>
        let s' : State := { s with
          stores := { labels := lp.1, store := st },
          objectMap := insertA s.objectMap oid (nid, md) }
        some (s', (nid, md))
    | none =>
        if acc.childrenNames.length = acc.children.length then
          let node : StoredNode :=
            { ty := .MavenDirectory, label := lp.2,
              childrenNames := some acc.childrenNames,
              children := some acc.children, bloom := .much }
          let s' : State := { s with
            stores := { labels := lp.1, store := st ++ [node] },
            objectMap := insertA s.objectMap oid (st.length, md) }
          some (s', (st.length, md))
        else none

/-- The `object_map` cache-hit path of `handle_maven_module`
(`preprocessed.rs` lines 532-548): clone the memoized `(NodeId, MD)`,
intern the current entry name, assert it is not already a child, and
`push_submodule` it — the memoized node's own label is never inspected. -/
def mavenMemoHitAttach (s : State) (acc : MavenModuleAcc) (hit : NodeId × MD)
    (name : String) : Option (State × MavenModuleAcc) :=
  let lp := labelGetOrInsert s.stores.labels name
  match acc.push_submoduleG lp.2 hit with
  | none => none
  | some a =>
      some ({ s with stores := { labels := lp.1, store := s.stores.store } }, a)

/-- The `object_map` cache-hit path of `fast_fwd` (`preprocessed.rs` lines
280-307): intern the current name, resolve the memoized node and compare
its label with the current name — a mismatch panics — then assert and
`push_submodule`. -/
def fastFwdMemoHit (s : State) (acc : MavenModuleAcc) (hit : NodeId × MD)
    (name : String) : Option (State × MavenModuleAcc) :=
  let lp := labelGetOrInsert s.stores.labels name
  match s.stores.store.get? hit.1 with
  | none => none
  | some node =>
      if node.label ≠ lp.2 then none
      else
        match acc.push_submoduleG lp.2 hit with
        | none => none
        | some a =>
            some ({ s with stores := { labels := lp.1, store := s.stores.store } }, a)

/-- The `object_map_java` cache-hit path for a subtree in `handle_java_src`
(`preprocessed.rs` lines 864-890): look the current name up in the label
store (`get(..).unwrap()`), resolve the memoized node and compare labels —
a mismatch panics — then assert and `push_dir` with the memoized
`skiped_ana` flag. -/
def javaTreeMemoHit (g : Gens) (s : State) (acc : JavaAcc) (hit : Local × Bool)
    (name : String) : Option (State × JavaAcc) :=
  match s.stores.labels.findIdx? (fun x => x == name) with
  | none => none
  | some nm =>
      match s.stores.store.get? hit.1.compressed_node with
      | none => none
      | some node =>
          if node.label ≠ nm then none
          else
            match acc.push_dirG nm hit.1 hit.2 g.maxRefs with
            | none => none
            | some a => some (s, a)

/-- The blob handling of `handle_java_src` (`preprocessed.rs` lines
903-961): unhandled extensions are skipped; an `object_map_java` hit is
attached after the label comparison (mismatch panics); on a miss, only
`.java` blobs with UTF-8 content reach `handle_java_file`, whose success is
memoized with `skipped_ana = false` and attached; everything else — a
non-UTF-8 blob, a parse error under the propagate flag, and in particular
any `.xml` blob that missed the memo — is skipped. -/
def javaBlobStep (g : Gens) (s : State) (acc : JavaAcc) (oid : Nat)
    (name text : String) (utf8 : Bool) : Option (State × JavaAcc) :=
  if ¬ is_handled name then some (s, acc)
  else
    match lookupA s.objectMapJava oid with
    | some hit =>
        let lp := labelGetOrInsert s.stores.labels name
        match s.stores.store.get? hit.1.compressed_node with
        | none => none
        | some node =>
            if node.label ≠ lp.2 then none
            else
              match acc.pushG lp.2 hit.1 g.maxRefs with
              | none => none
              | some a =>
                  some ({ s with stores := { labels := lp.1, store := s.stores.store } }, a)
    | none =>
        if strEndsWith name ".java" then
          if utf8 then
            match handleJavaFile g s.stores name text with
            | none => some (s, acc)
            | some (st1, loc) =>
                let s1 : State := { s with
                  stores := st1,
                  objectMapJava := insertA s.objectMapJava oid (loc, false) }
                let lp := labelGetOrInsert s1.stores.labels name
                match acc.pushG lp.2 loc g.maxRefs with
                | none => none
                | some a =>
                    some ({ s1 with stores := { labels := lp.1, store := s1.stores.store } }, a)
          else some (s, acc)
        else some (s, acc)

/-- The blob handling of `handle_maven_module` (`preprocessed.rs` lines
650-691): only `pom.xml` blobs are considered; an `object_map_pom` hit is
attached via `push_pom`; on a miss with UTF-8 content the POM handler runs
and its result is `unwrap()`ed — an error panics — then memoized and
attached; a non-UTF-8 blob is skipped silently. -/
def mavenPomBlobStep (g : Gens) (s : State) (acc : MavenModuleAcc) (oid : Nat)
    (name text : String) (utf8 : Bool) : Option (State × MavenModuleAcc) :=
  if name ≠ "pom.xml" then some (s, acc)
  else
    match lookupA s.objectMapPom oid with
    | some already =>
        let lp := labelGetOrInsert s.stores.labels name
        match acc.push_pomG lp.2 already with
        | none => none
        | some a =>
            some ({ s with stores := { labels := lp.1, store := s.stores.store } }, a)
    | none =>
        if utf8 then
          match handlePomFile g s.stores name text with
          | none => none
          | some (st1, pom) =>
              let s1 : State := { s with
                stores := st1,
                objectMapPom := insertA s.objectMapPom oid pom }
              let lp := labelGetOrInsert s1.stores.labels name
              match acc.push_pomG lp.2 pom with
              | none => none
              | some a =>
                  some ({ s1 with stores := { labels := lp.1, store := s1.stores.store } }, a)
        else some (s, acc)

/-- The descent scan: pop entries while the descent path is non-empty —
blobs and non-matching subtrees are discarded — returning the first
subtree entry whose name matches the next path component. -/
def findTreeNamed (p : String) : List GEntry → Option (Nat × String × List GEntry)
  | [] => none
  | .treeE o n es :: r => if n = p then some (o, n, es) else findTreeNamed p r
  | _ :: r => findTreeNamed p r

mutual

/-- The entry loop of `handle_java_src` for one frame: the prepared vector
is `tree.iter().rev().collect()` popped from the back, i.e. the entries in
git order.  Subtrees consult `object_map_java` and either attach the hit or
push a fresh `JavaAcc` frame (modelled by the recursive call) whose fold
result is `push_dir`ed into this accumulator; blobs go through
`javaBlobStep`. -/
def javaSrcList (g : Gens) : Nat → State → JavaAcc → List GEntry →
    Option (State × JavaAcc)
  | 0, _, _, _ => none
  | _ + 1, s, acc, [] => some (s, acc)
  | fuel + 1, s, acc, .blobE oid n c u :: rest =>
      match javaBlobStep g s acc oid n c u with
      | none => none
      | some (s', acc') => javaSrcList g fuel s' acc' rest
  | fuel + 1, s, acc, .treeE oid n es :: rest =>
      match lookupA s.objectMapJava oid with
      | some hit =>
          match javaTreeMemoHit g s acc hit n with
          | none => none
          | some (s', acc') => javaSrcList g fuel s' acc' rest
      | none =>
          match javaSrcTree g fuel s oid n es with
          | none => none
          | some (s', loc, sk) =>
              let lp := labelGetOrInsert s'.stores.labels n
              match acc.push_dirG lp.2 loc sk g.maxRefs with
              | none => none
              | some acc' =>
                  javaSrcList g fuel
                    { s' with stores := { labels := lp.1, store := s'.stores.store } }
                    acc' rest

/-- `handle_java_src` (`preprocessed.rs` lines 841-1150) on one subtree:
process the entries into a fresh `JavaAcc` frame, then fold. -/
def javaSrcTree (g : Gens) : Nat → State → Nat → String → List GEntry →
    Option (State × Local × Bool)
  | 0, _, _, _, _ => none
  | fuel + 1, s, oid, name, es =>
      match javaSrcList g fuel s (JavaAcc.new name) es with
      | none => none
      | some (s1, acc) => javaSrcFold g s1 oid acc

end

mutual

/-- The entry loop of `handle_maven_module` for one frame with the descent
path exhausted: blobs go through the pom step, subtrees through the
memo-or-classify child handler. -/
def mavenList (g : Gens) : Nat → State → MavenModuleAcc → List GEntry →
    Option (State × MavenModuleAcc)
  | 0, _, _, _ => none
  | _ + 1, s, acc, [] => some (s, acc)
  | fuel + 1, s, acc, .blobE oid n c u :: rest =>
      match mavenPomBlobStep g s acc oid n c u with
      | none => none
      | some (s', acc') => mavenList g fuel s' acc' rest
  | fuel + 1, s, acc, .treeE oid n es :: rest =>
      match mavenTreeChild g fuel s acc oid n es with
      | none => none
      | some (s', acc') => mavenList g fuel s' acc' rest

/-- One subtree child of a Maven frame (`preprocessed.rs` lines 511-649,
descent path exhausted): on an `object_map` hit attach the memoized node
(no label check); otherwise strip this name from the parent's pending sets,
handle a resolved main/test source root via `handle_java_src`, and push a
new Maven frame when this directory is a sub-module, when stripped pending
paths remain, or as the pom-discovery fallback when nothing matched. -/
def mavenTreeChild (g : Gens) : Nat → State → MavenModuleAcc → Nat → String →
    List GEntry → Option (State × MavenModuleAcc)
  | 0, _, _, _, _, _ => none
  | fuel + 1, s, acc, oid, name, es =>
      match lookupA s.objectMap oid with
      | some hit => mavenMemoHitAttach s acc hit name
      | none =>
          let dsub := drainFilterStrip acc.subModules name
          let dmain := drainFilterStrip acc.mainDirs name
          let dtest := drainFilterStrip acc.testDirs name
          let acc1 : MavenModuleAcc := { acc with
            subModules := dsub.1, mainDirs := dmain.1, testDirs := dtest.1 }
          let isSrc := dmain.2.any (fun p => p.isEmpty)
          let newMains := dmain.2.filter (fun p => !p.isEmpty)
          let isTst := dtest.2.any (fun p => p.isEmpty)
          let newTests := dtest.2.filter (fun p => !p.isEmpty)
          let step1 : Option (State × MavenModuleAcc) :=
            if isSrc || isTst then
              match javaSrcTree g fuel s oid name es with
              | none => none
              | some (s', loc, _) =>
                  let lp := labelGetOrInsert s'.stores.labels name
                  let s'' : State :=
                    { s' with stores := { labels := lp.1, store := s'.stores.store } }
                  if isSrc then
                    match acc1.push_source_directoryG lp.2 loc with
                    | none => none
                    | some a => some (s'', a)
                  else
                    match acc1.push_test_source_directoryG lp.2 loc with
                    | none => none
                    | some a => some (s'', a)
            else some (s, acc1)
          match step1 with
          | none => none
          | some (s2, acc2) =>
              let isMod := dsub.2.any (fun p => p.isEmpty)
              let newSubs := dsub.2.filter (fun p => !p.isEmpty)
              if isMod || !(newSubs = [] ∧ newMains = [] ∧ newTests = []) then
                match mavenTree g fuel s2 [] oid es
                        (MavenModuleAcc.with_content name newSubs newMains newTests) with
                | none => none
                | some (s3, full) =>
                    let lp := labelGetOrInsert s3.stores.labels name
                    match acc2.push_submoduleG lp.2 full with
                    | none => none
                    | some a =>
                        some ({ s3 with
                          stores := { labels := lp.1, store := s3.stores.store } }, a)
              else if ¬ (isSrc || isTst) then
                match mavenTree g fuel s2 [] oid es
                        (MavenModuleAcc.with_content name newSubs newMains newTests) with
                | none => none
                | some (s3, full) =>
                    let lp := labelGetOrInsert s3.stores.labels name
                    match acc2.push_submoduleG lp.2 full with
                    | none => none
                    | some a =>
                        some ({ s3 with
                          stores := { labels := lp.1, store := s3.stores.store } }, a)
              else some (s2, acc2)

/-- One Maven frame of `handle_maven_module` (`preprocessed.rs` lines
470-838).  With the descent path exhausted, visit the prepared entries
(pom first when present) and fold.  With a non-empty descent path, visit in
pop order discarding blobs and non-matching subtrees; on the matching name
the remaining entries are cleared and the descent continues in a fresh
frame whose folded result is pushed into this frame's accumulator before it
folds in turn; when nothing matches the frame folds as it stands. -/
def mavenTree (g : Gens) : Nat → State → List String → Nat → List GEntry →
    MavenModuleAcc → Option (State × (NodeId × MD))
  | 0, _, _, _, _, _ => none
  | fuel + 1, s, [], oid, es, acc0 =>
      match mavenList g fuel s acc0 (exploreOrder es true) with
      | none => none
      | some (s1, acc1) => mavenFold g s1 oid acc1
  | fuel + 1, s, p :: rest, oid, es, acc0 =>
      match findTreeNamed p (exploreOrder es false) with
      | none => mavenFold g s oid acc0
      | some (oid', n', es') =>
          match mavenTree g fuel s rest oid' es' (MavenModuleAcc.new n') with
          | none => none
          | some (s1, full) =>
              let lp := labelGetOrInsert s1.stores.labels n'
              let s2 : State :=
                { s1 with stores := { labels := lp.1, store := s1.stores.store } }
              match acc0.push_submoduleG lp.2 full with
              | none => none
              | some a => mavenFold g s2 oid a

end

/-- The entry loop of `fast_fwd` for one frame with the descent path
exhausted (`preprocessed.rs` lines 258-322): blobs are skipped outright;
subtrees consult `object_map` — a hit is attached after the label
comparison (mismatch panics), a miss is handled as a Java source root via
`handle_java_src` and attached with `push_source_directory`. -/
def fastFwdList (g : Gens) (fuel : Nat) : State → MavenModuleAcc →
    List GEntry → Option (State × MavenModuleAcc)
  | s, acc, [] => some (s, acc)
  | s, acc, .blobE _ _ _ _ :: rest => fastFwdList g fuel s acc rest
  | s, acc, .treeE oid n es :: rest =>
      match lookupA s.objectMap oid with
      | some hit =>
          match fastFwdMemoHit s acc hit n with
          | none => none
          | some (s', acc') => fastFwdList g fuel s' acc' rest
      | none =>
          match javaSrcTree g fuel s oid n es with
          | none => none
          | some (s', loc, _) =>
              let lp := labelGetOrInsert s'.stores.labels n
              match acc.push_source_directoryG lp.2 loc with
              | none => none
              | some acc' =>
                  fastFwdList g fuel
                    { s' with stores := { labels := lp.1, store := s'.stores.store } }
                    acc' rest

/-- One frame of `fast_fwd` (`preprocessed.rs` lines 222-468): the same
descent handling and (verbatim-duplicated) Maven fold as
`handle_maven_module`, but with every non-descent subtree treated as a
Java source directory. -/
def fastFwdTree (g : Gens) : Nat → State → List String → Nat → List GEntry →
    MavenModuleAcc → Option (State × (NodeId × MD))
  | 0, _, _, _, _, _ => none
  | fuel + 1, s, [], oid, es, acc0 =>
      match fastFwdList g fuel s acc0 (exploreOrder es true) with
      | none => none
      | some (s1, acc1) => mavenFold g s1 oid acc1
  | fuel + 1, s, p :: rest, oid, es, acc0 =>
      match findTreeNamed p (exploreOrder es false) with
      | none => mavenFold g s oid acc0
      | some (oid', n', es') =>
          match fastFwdTree g fuel s rest oid' es' (MavenModuleAcc.new n') with
          | none => none
          | some (s1, full) =>
              let lp := labelGetOrInsert s1.stores.labels n'
              let s2 : State :=
                { s1 with stores := { labels := lp.1, store := s1.stores.store } }
              match acc0.push_submoduleG lp.2 full with
              | none => none
              | some a => mavenFold g s2 oid a

/-- A commit of the repository handle: its tree object id and entries, and
its parent commit ids. -/
structure RepoCommit where
  treeOid : Nat
  entries : List GEntry
  parents : List Nat

/-- The `Commit` record produced per processed commit. -/
structure CommitRec where
  astRoot : NodeId
  parents : List Nat
  md : MD
deriving DecidableEq

/-- `handle_maven_commit` (`preprocessed.rs` lines 181-200): find the
commit (a missing object id panics), run `handle_maven_module` on its tree
with the module path, and package the `Commit` record. -/
def handleMavenCommit (g : Gens) (fuel : Nat) (s : State)
    (repo : List (Nat × RepoCommit)) (modulePath : List String) (coid : Nat) :
    Option (State × CommitRec) :=
  match lookupA repo coid with
  | none => none
  | some c =>
      match mavenTree g fuel s modulePath c.treeOid c.entries (MavenModuleAcc.new "") with
      | none => none
      | some (s', full) =>
          some (s', { astRoot := full.1, parents := c.parents, md := full.2 })

/-- `handle_java_commit` (`preprocessed.rs` lines 202-220): like
`handle_maven_commit` but through `fast_fwd`. -/
def handleJavaCommit (g : Gens) (fuel : Nat) (s : State)
    (repo : List (Nat × RepoCommit)) (modulePath : List String) (coid : Nat) :
    Option (State × CommitRec) :=
  match lookupA repo coid with
  | none => none
  | some c =>
      match fastFwdTree g fuel s modulePath c.treeOid c.entries (MavenModuleAcc.new "") with
      | none => none
      | some (s', full) =>
          some (s', { astRoot := full.1, parents := c.parents, md := full.2 })

/-- The `for_each` body shared by `pre_process` and `pre_process_no_maven`:
handle each commit id and insert the result into the commits map. -/
def preProcessGo (g : Gens) (fuel : Nat) (repo : List (Nat × RepoCommit))
    (dirPath : List String) (maven : Bool) :
    State → List (Nat × CommitRec) → List Nat →
    Option (State × List (Nat × CommitRec))
  | s, cs, [] => some (s, cs)
  | s, cs, oid :: rest =>
      match (if maven then handleMavenCommit g fuel s repo dirPath oid
             else handleJavaCommit g fuel s repo dirPath oid) with
      | none => none
      | some (s', c) => preProcessGo g fuel repo dirPath maven s' (insertA cs oid c) rest

/-- `pre_process` (`preprocessed.rs` lines 116-136): truncate the
enumerated commit range with `take(2)` and ingest each commit through
`handle_maven_commit`, inserting into the commits map.  The revwalk
enumeration (`all_commits_between`, in `git.rs` outside src) is taken as
the input list. -/
def preProcess (g : Gens) (fuel : Nat) (repo : List (Nat × RepoCommit))
    (dirPath : List String) (s : State) (cs : List (Nat × CommitRec))
    (revwalk : List Nat) : Option (State × List (Nat × CommitRec)) :=
  preProcessGo g fuel repo dirPath true s cs (revwalk.take 2)

/-- `pre_process_no_maven` (`preprocessed.rs` lines 138-158): the same
`take(2)` truncation, ingesting through `handle_java_commit`. -/
def preProcessNoMaven (g : Gens) (fuel : Nat) (repo : List (Nat × RepoCommit))
    (dirPath : List String) (s : State) (cs : List (Nat × CommitRec))
    (revwalk : List Nat) : Option (State × List (Nat × CommitRec)) :=
  preProcessGo g fuel repo dirPath false s cs (revwalk.take 2)

/-- A push performed on a `JavaAcc` frame by the engine: a file push
(guarded `push`) or a directory push (guarded `push_dir`). -/
inductive JOp where
  | file : LabelId → Local → JOp
  | dir : LabelId → Local → Bool → JOp

/-- Apply one engine push to a `JavaAcc` (with its call-site assert). -/
def JavaAcc.applyOp (mx : Nat) (acc : JavaAcc) : JOp → Option JavaAcc
  | .file nm c => acc.pushG nm c mx
  | .dir nm c sk => acc.push_dirG nm c sk mx

/-- Apply a sequence of engine pushes to a `JavaAcc`. -/
def JavaAcc.applyOps (mx : Nat) (acc : JavaAcc) : List JOp → Option JavaAcc
  | [] => some acc
  | op :: rest =>
      match acc.applyOp mx op with
      | none => none
      | some a => a.applyOps mx rest

/-- A push performed on a `MavenModuleAcc` frame by the engine. -/
inductive MOp where
  | sub : LabelId → NodeId × MD → MOp
  | srcDir : LabelId → Local → MOp
  | tstDir : LabelId → Local → MOp
  | pomP : LabelId → POM → MOp

/-- Apply one engine push to a `MavenModuleAcc` (with its call-site assert). -/
def MavenModuleAcc.applyOp (acc : MavenModuleAcc) : MOp → Option MavenModuleAcc
  | .sub nm c => acc.push_submoduleG nm c
  | .srcDir nm c => acc.push_source_directoryG nm c
  | .tstDir nm c => acc.push_test_source_directoryG nm c
  | .pomP nm p => acc.push_pomG nm p

/-- Apply a sequence of engine pushes to a `MavenModuleAcc`. -/
def MavenModuleAcc.applyOps (acc : MavenModuleAcc) : List MOp → Option MavenModuleAcc
  | [] => some acc
  | op :: rest =>
      match acc.applyOp op with
      | none => none
      | some a => a.applyOps rest

/-- A push performed on a `CppAcc` frame. -/
inductive COp where
  | push : LabelId → Local → Bool → COp

/-- Apply a sequence of guarded pushes to a `CppAcc`. -/
def CppAcc.applyOps (acc : CppAcc) : List COp → Option CppAcc
  | [] => some acc
  | .push nm c sk :: rest =>
      match acc.pushG nm c sk with
      | none => none
      | some a => a.applyOps rest

/-- A concrete instance of the external collaborators, used to evaluate the
traversal on closed inputs: every parse succeeds, each generator appends
one fresh node labelled with the interned file name, the POM parser
declares the single source-directory path `src`, resolution is the
identity, `MAX_REFS` is 1000 and the bad-CST policy propagates errors. -/
def gensId : Gens :=
  { javaOk := fun _ => true,
    javaGen := fun st n _ =>
      let lp := labelGetOrInsert st.labels n
      ({ labels := lp.1,
         store := st.store ++ [{ ty := .parsed 1, label := lp.2,
                                 childrenNames := none, children := none, bloom := .none }] },
       { compressed_node := st.store.length, metrics := ⟨1, 1⟩, ana := 0 }),
    pomOk := fun _ => true,
    pomGen := fun st n _ =>
      let lp := labelGetOrInsert st.labels n
      ({ labels := lp.1,
         store := st.store ++ [{ ty := .parsed 2, label := lp.2,
                                 childrenNames := none, children := none, bloom := .none }] },
       { node := st.store.length, metrics := ⟨1, 1⟩, ana := 0,
         submodules := [], mainDirs := [["src"]], testDirs := [] }),
    cppOk := fun _ => true,
    cppGen := fun st n _ =>
      let lp := labelGetOrInsert st.labels n
      ({ labels := lp.1,
         store := st.store ++ [{ ty := .parsed 3, label := lp.2,
                                 childrenNames := none, children := none, bloom := .none }] },
       { compressed_node := st.store.length, metrics := ⟨1, 1⟩, ana := 0 }),
    resolveAna := fun a => a,
    maxRefs := 1000,
    propagate := true }

/-- A repository with one commit whose tree holds a valid `pom.xml` (whose
POM declares the source directory `src`) and an empty directory `src`. -/
def c1repo : List (Nat × RepoCommit) :=
  [(10, { treeOid := 100,
          entries := [GEntry.blobE 1 "pom.xml" "p" true, GEntry.treeE 2 "src" []],
          parents := [] })]

/-- First ingestion of commit 10. -/
def c1run1 : Option (State × CommitRec) :=
  handleMavenCommit gensId 100 state0 c1repo [] 10

/-- Second ingestion of the same commit against the resulting state. -/
def c1run2 : Option (State × CommitRec) :=
  c1run1.bind (fun p => handleMavenCommit gensId 100 p.1 c1repo [] 10)

/-- Two blob entries, neither named `pom.xml`. -/
def c2es : List GEntry :=
  [GEntry.blobE 1 "a" "" true, GEntry.blobE 2 "b" "" true]

/-- Three blob entries with `pom.xml` in the middle. -/
def c2es3 : List GEntry :=
  [GEntry.blobE 1 "a" "" true, GEntry.blobE 9 "pom.xml" "" true, GEntry.blobE 2 "b" "" true]

/-- The name carried by a git entry. -/
def entryName : GEntry → String
  | .blobE _ n _ _ => n
  | .treeE _ n _ => n

/-- A state whose store holds one `MavenDirectory` node labelled `bad`
(label id 0) while `object_map` memoizes it for object id 5; the label
store also holds `good` (label id 1). -/
def c3state : State :=
  { stores := { labels := ["bad", "good"],
                store := [{ ty := .MavenDirectory, label := 0, childrenNames := some [],
                            children := some [], bloom := .much }] },
    objectMap := [(5, (0, { metrics := ⟨1, 1⟩, ana := 0 }))],
    objectMapPom := [], objectMapJava := [] }

/-- The memoized metadata of the poisoned entry. -/
def c3md : MD := { metrics := ⟨1, 1⟩, ana := 0 }

/-- The memoized `Local` of the poisoned entry (for the Java-mode check). -/
def c3loc : Local := { compressed_node := 0, metrics := ⟨1, 1⟩, ana := 0 }

/-- Generators whose POM parser always reports a parse error. -/
def gBadPom : Gens := { gensId with pomOk := fun _ => false }

/-- A repository with one commit whose tree holds a single malformed
`pom.xml`. -/
def c4repo : List (Nat × RepoCommit) :=
  [(13, { treeOid := 103, entries := [GEntry.blobE 8 "pom.xml" "bad" true],
          parents := [] })]

/-- A one-child accumulator whose analysis resolved to 200 references. -/
def c6acc : JavaAcc :=
  { name := "d", children := [0], childrenNames := [5],
    metrics := ⟨1, 1⟩, ana := 200, skiped_ana := false }

/-- A state whose store holds the single (parser-produced) child of
`c6acc`. -/
def c6state : State :=
  { state0 with
    stores := { labels := [],
                store := [{ ty := .parsed 9, label := 0, childrenNames := none,
                            children := none, bloom := .none }] } }

/-- A file child whose analysis carries 5 references. -/
def ops7loc : Local := { compressed_node := 0, metrics := ⟨1, 1⟩, ana := 5 }

/-- One file push that exceeds a `MAX_REFS` of 1. -/
def ops7 : List JOp := [JOp.file 0 ops7loc]

/-- The accumulator reached by `ops7` from a fresh frame: one child and
`skiped_ana = true`. -/
def acc7 : JavaAcc :=
  { name := "d", children := [0], childrenNames := [0],
    metrics := ⟨1, 1⟩, ana := 0, skiped_ana := true }

/-- The state after folding `acc7` into the empty store. -/
def s7 : State :=
  { stores := { labels := ["d"],
                store := [{ ty := .Directory, label := 0, childrenNames := some [0],
                            children := some [0], bloom := .much }] },
    objectMap := [], objectMapPom := [],
    objectMapJava := [(77, ({ compressed_node := 0, metrics := ⟨2, 2⟩, ana := 0 }, true))] }

/-- The `Local` produced by that fold. -/
def loc7 : Local := { compressed_node := 0, metrics := ⟨2, 2⟩, ana := 0 }

/-- Engine pushes used to exercise the duplicate-name invariant. -/
def opsM : List MOp :=
  [MOp.pomP 0 { node := 0, metrics := ⟨1, 1⟩, ana := 0,
                submodules := [], mainDirs := [], testDirs := [] },
   MOp.sub 1 (1, { metrics := ⟨1, 1⟩, ana := 0 }),
   MOp.srcDir 2 { compressed_node := 2, metrics := ⟨1, 1⟩, ana := 0 }]

/-- The accumulator reached by `opsM`. -/
def accM : MavenModuleAcc :=
  { name := "r", children := [0, 1, 2], childrenNames := [0, 1, 2],
    metrics := ⟨3, 1⟩, ana := 0,
    subModules := some [], mainDirs := some [], testDirs := some [] }

/-- Engine pushes for the Java flavor. -/
def opsJ : List JOp :=
  [JOp.file 4 { compressed_node := 0, metrics := ⟨1, 1⟩, ana := 0 },
   JOp.dir 6 { compressed_node := 1, metrics := ⟨1, 1⟩, ana := 0 } false]

/-- The accumulator reached by `opsJ`. -/
def accJ : JavaAcc :=
  { name := "r", children := [0, 1], childrenNames := [4, 6],
    metrics := ⟨2, 1⟩, ana := 0, skiped_ana := false }

/-- Engine pushes for the C++ flavor. -/
def opsC : List COp :=
  [COp.push 4 { compressed_node := 0, metrics := ⟨1, 1⟩, ana := 0 } false,
   COp.push 6 { compressed_node := 1, metrics := ⟨1, 1⟩, ana := 0 } false]

/-- The accumulator reached by `opsC`. -/
def accC : CppAcc :=
  { name := "r", children := [0, 1], childrenNames := [4, 6], metrics := ⟨2, 1⟩ }

/-- A repository with one commit over an empty tree. -/
def c9repo : List (Nat × RepoCommit) :=
  [(1, { treeOid := 2, entries := [], parents := [] })]

/-- The state after `pre_process` over `c9repo` with revwalk `[1, 1, 1]`. -/
def c9sW : State :=
  { stores := { labels := [""],
                store := [{ ty := .MavenDirectory, label := 0, childrenNames := some [],
                            children := some [], bloom := .much }] },
    objectMap := [(2, (0, { metrics := ⟨1, 1⟩, ana := 0 }))],
    objectMapPom := [], objectMapJava := [] }

/-- The commits map after that `pre_process` call. -/
def c9csW : List (Nat × CommitRec) :=
  [(1, { astRoot := 0, parents := [], md := { metrics := ⟨1, 1⟩, ana := 0 } })]

/-- The state after a Maven fold of a fresh accumulator named `m` under
object id 42. -/
def s10 : State :=
  { stores := { labels := ["m"],
                store := [{ ty := .MavenDirectory, label := 0, childrenNames := some [],
                            children := some [], bloom := .much }] },
    objectMap := [(42, (0, { metrics := ⟨1, 1⟩, ana := 0 }))],
    objectMapPom := [], objectMapJava := [] }

/-- The metadata produced by that fold. -/
def md10 : MD := { metrics := ⟨1, 1⟩, ana := 0 }

/-- Generators whose Java parser always reports a bad CST, with the
propagate policy set. -/
def gBadJava : Gens := { gensId with javaOk := fun _ => false }

/-- Generators whose Java parser always reports a bad CST, with the
propagate policy unset (best-effort trees are kept). -/
def gBadJavaKeep : Gens :=
  { gensId with javaOk := fun _ => false, propagate := false }

/-- Generators whose C++ parser always reports a bad CST. -/
def gBadCpp : Gens := { gensId with cppOk := fun _ => false }

/-- The stores produced by the concrete Java generator on `a.java` over the
empty stores. -/
def c5st1 : Stores :=
  { labels := ["a.java"],
    store := [{ ty := .parsed 1, label := 0, childrenNames := none,
                children := none, bloom := .none }] }

/-- The `Local` produced by that generation. -/
def c5loc : Local := { compressed_node := 0, metrics := ⟨1, 1⟩, ana := 0 }

/-- The node freshly inserted by the fold of `acc7`. -/
def node7 : StoredNode :=
  { ty := .Directory, label := 0, childrenNames := some [0],
    children := some [0], bloom := .much }

/-- The node freshly inserted by the Maven fold of a fresh accumulator. -/
def node10 : StoredNode :=
  { ty := .MavenDirectory, label := 0, childrenNames := some [],
    children := some [], bloom := .much }

theorem insertA_length {α : Type} (m : List (Nat × α)) (k : Nat) (v : α) :
    (insertA m k v).length ≤ m.length + 1 := by
  induction m with
  | nil => simp [insertA]
  | cons p rest ih =>
      simp only [insertA]
      split
      · simp
      · simpa using Nat.succ_le_succ ih

theorem lookupA_insertA_self {α : Type} (m : List (Nat × α)) (k : Nat) (v : α) :
    lookupA (insertA m k v) k = some v := by
  induction m with
  | nil => simp [insertA, lookupA, List.find?]
  | cons p rest ih =>
      by_cases h : p.1 == k
      · simp [insertA, h, lookupA, List.find?]
      · simp only [insertA, h, Bool.false_eq_true, if_false]
        simp only [lookupA, List.find?] at ih ⊢
        simp [h, ih]

theorem nodup_push {l : List Nat} {a : Nat} (h : l.Nodup) (ha : a ∉ l) :
    (l ++ [a]).Nodup := by
  simp only [List.nodup_append, List.nodup_cons, List.not_mem_nil, not_false_iff,
    List.nodup_nil, and_true, true_and, List.disjoint_left]
  exact ⟨h, fun x hx hxa => ha ((List.mem_singleton.mp hxa) ▸ hx)⟩

theorem findIdx?_none_of_all {α : Type} {p : α → Bool} :
    ∀ {l : List α}, (∀ e ∈ l, p e = false) → l.findIdx? p = none := by
  intro l
  induction l with
  | nil => intro _; rfl
  | cons a rest ih =>
      intro h
      have ha : p a = false := h a (by simp)
      simp [List.findIdx?_cons, ha, ih (fun e he => h e (by simp [he]))]

theorem findIdx?_first {α : Type} {p : α → Bool} :
    ∀ (l : List α) (i : Nat) (e : α),
      l.get? i = some e → p e = true →
      (∀ j e', j < i → l.get? j = some e' → p e' = false) →
      l.findIdx? p = some i := by
  intro l
  induction l with
  | nil => intro i e h; simp at h
  | cons a rest ih =>
      intro i e hget hp hbefore
      cases i with
      | zero =>
          simp only [List.get?] at hget
          cases hget
          simp [List.findIdx?_cons, hp]
      | succ n =>
          have ha : p a = false := hbefore 0 a (Nat.succ_pos n) rfl
          simp only [List.get?] at hget
          have := ih n e hget hp
            (fun j e' hj hg => hbefore (j + 1) e' (Nat.succ_lt_succ hj) hg)
          simp [List.findIdx?_cons, ha, this]

theorem javaDirBloom_skiped (r : Nat) : javaDirBloom true r = BloomKind.much := by
  simp [javaDirBloom]

theorem JavaAcc.push_childrenNames (acc : JavaAcc) (nm : LabelId) (c : Local)
    (mx : Nat) : (acc.push nm c mx).childrenNames = acc.childrenNames ++ [nm] := by
  simp only [JavaAcc.push]
  split <;> rfl

theorem JavaAcc.push_children (acc : JavaAcc) (nm : LabelId) (c : Local)
    (mx : Nat) : (acc.push nm c mx).children = acc.children ++ [c.compressed_node] := by
  simp only [JavaAcc.push]
  split <;> rfl

theorem JavaAcc.push_dir_childrenNames (acc : JavaAcc) (nm : LabelId) (c : Local)
    (sk : Bool) (mx : Nat) :
    (acc.push_dir nm c sk mx).childrenNames = acc.childrenNames ++ [nm] := rfl

theorem JavaAcc.push_dir_children (acc : JavaAcc) (nm : LabelId) (c : Local)
    (sk : Bool) (mx : Nat) :
    (acc.push_dir nm c sk mx).children = acc.children ++ [c.compressed_node] := rfl

theorem javaAcc_applyOp_childrenNames (mx : Nat) (acc a : JavaAcc) (op : JOp)
    (h : acc.applyOp mx op = some a) :
    ∃ nm, nm ∉ acc.childrenNames ∧ a.childrenNames = acc.childrenNames ++ [nm] ∧
      a.children ≠ [] := by
  cases op with
  | file nm c =>
      refine ⟨nm, ?_⟩
      simp only [JavaAcc.applyOp, JavaAcc.pushG] at h
      split at h
      · exact absurd h (by simp)
      · rename_i hmem
        cases h
        simp [JavaAcc.push_childrenNames, JavaAcc.push_children, hmem]
  | dir nm c sk =>
      refine ⟨nm, ?_⟩
      simp only [JavaAcc.applyOp, JavaAcc.push_dirG] at h
      split at h
      · exact absurd h (by simp)
      · rename_i hmem
        cases h
        simp [JavaAcc.push_dir_childrenNames, JavaAcc.push_dir_children, hmem]

theorem javaAcc_applyOps_nodup (mx : Nat) :
    ∀ (ops : List JOp) (acc acc' : JavaAcc),
      JavaAcc.applyOps mx acc ops = some acc' →
      acc.childrenNames.Nodup → acc'.childrenNames.Nodup := by
  intro ops
  induction ops with
  | nil =>
      intro acc acc' h hn
      simp only [JavaAcc.applyOps] at h
      cases h
      exact hn
  | cons op rest ih =>
      intro acc acc' h hn
      simp only [JavaAcc.applyOps] at h
      cases hop : acc.applyOp mx op with
      | none => rw [hop] at h; exact absurd h (by simp)
      | some a =>
          rw [hop] at h
          obtain ⟨nm, hmem, heq, _⟩ := javaAcc_applyOp_childrenNames mx acc a op hop
          exact ih a acc' h (heq ▸ nodup_push hn hmem)

theorem javaAcc_applyOps_skiped (mx : Nat) :
    ∀ (ops : List JOp) (acc acc' : JavaAcc),
      JavaAcc.applyOps mx acc ops = some acc' →
      (acc.skiped_ana = true → acc.children ≠ []) →
      (acc'.skiped_ana = true → acc'.children ≠ []) := by
  intro ops
  induction ops with
  | nil =>
      intro acc acc' h hn
      simp only [JavaAcc.applyOps] at h
      cases h
      exact hn
  | cons op rest ih =>
      intro acc acc' h hn
      simp only [JavaAcc.applyOps] at h
      cases hop : acc.applyOp mx op with
      | none => rw [hop] at h; exact absurd h (by simp)
      | some a =>
          rw [hop] at h
          obtain ⟨nm, _, _, hne⟩ := javaAcc_applyOp_childrenNames mx acc a op hop
          exact ih a acc' h (fun _ => hne)

theorem mavenAcc_applyOp_childrenNames (acc a : MavenModuleAcc) (op : MOp)
    (h : acc.applyOp op = some a) :
    ∃ nm, nm ∉ acc.childrenNames ∧ a.childrenNames = acc.childrenNames ++ [nm] := by
  cases op with
  | sub nm c =>
      refine ⟨nm, ?_⟩
      simp only [MavenModuleAcc.applyOp, MavenModuleAcc.push_submoduleG] at h
      split at h
      · exact absurd h (by simp)
      · rename_i hmem; cases h; exact ⟨hmem, rfl⟩
  | srcDir nm c =>
      refine ⟨nm, ?_⟩
      simp only [MavenModuleAcc.applyOp, MavenModuleAcc.push_source_directoryG] at h
      split at h
      · exact absurd h (by simp)
      · rename_i hmem; cases h; exact ⟨hmem, rfl⟩
  | tstDir nm c =>
      refine ⟨nm, ?_⟩
      simp only [MavenModuleAcc.applyOp, MavenModuleAcc.push_test_source_directoryG] at h
      split at h
      · exact absurd h (by simp)
      · rename_i hmem; cases h; exact ⟨hmem, rfl⟩
  | pomP nm p =>
      refine ⟨nm, ?_⟩
      simp only [MavenModuleAcc.applyOp, MavenModuleAcc.push_pomG] at h
      split at h
      · exact absurd h (by simp)
      · rename_i hmem; cases h; exact ⟨hmem, rfl⟩

theorem mavenAcc_applyOps_nodup :
    ∀ (ops : List MOp) (acc acc' : MavenModuleAcc),
      MavenModuleAcc.applyOps acc ops = some acc' →
      acc.childrenNames.Nodup → acc'.childrenNames.Nodup := by
  intro ops
  induction ops with
  | nil =>
      intro acc acc' h hn
      simp only [MavenModuleAcc.applyOps] at h
      cases h
      exact hn
  | cons op rest ih =>
      intro acc acc' h hn
      simp only [MavenModuleAcc.applyOps] at h
      cases hop : acc.applyOp op with
      | none => rw [hop] at h; exact absurd h (by simp)
      | some a =>
          rw [hop] at h
          obtain ⟨nm, hmem, heq⟩ := mavenAcc_applyOp_childrenNames acc a op hop
          exact ih a acc' h (heq ▸ nodup_push hn hmem)

theorem cppAcc_applyOps_nodup :
    ∀ (ops : List COp) (acc acc' : CppAcc),
      CppAcc.applyOps acc ops = some acc' →
      acc.childrenNames.Nodup → acc'.childrenNames.Nodup := by
  intro ops
  induction ops with
  | nil =>
      intro acc acc' h hn
      simp only [CppAcc.applyOps] at h
      cases h
      exact hn
  | cons op rest ih =>
      cases op with
      | push nm c sk =>
          intro acc acc' h hn
          simp only [CppAcc.applyOps] at h
          cases hop : acc.pushG nm c sk with
          | none => rw [hop] at h; exact absurd h (by simp)
          | some a =>
              rw [hop] at h
              simp only [CppAcc.pushG] at hop
              split at hop
              · exact absurd hop (by simp)
              · rename_i hmem
                cases hop
                exact ih _ acc' h (nodup_push hn hmem)

/-- C1: evaluating `handle_maven_commit` twice on the same commit (a valid
`pom.xml` declaring source directory `src`, plus an empty directory `src`)
against the same repository state.  The second ingestion re-folds the empty
source root; the childless `Directory` node inserted by the first run
carries no children component, so the `(type, label, children)` equality
callback cannot match it; a fresh node and a fresh root are inserted: the
node store grows from 3 to 5 nodes and the `ast_root` changes from node 2
to node 4, contradicting the claim. -/
theorem c1_reingest_empty_source_root :
    c1run1.map (fun p => p.2.astRoot) = some 2 ∧
    c1run2.map (fun p => p.2.astRoot) = some 4 ∧
    c1run1.map (fun p => p.1.stores.store.length) = some 3 ∧
    c1run2.map (fun p => p.1.stores.store.length) = some 5 :=
  ⟨rfl, rfl, rfl, rfl⟩

/-- C2 counterexample: on a tree with no `pom.xml` blob and the descent
path exhausted, `prepare_dir_exploration` returns the entries unchanged —
it does not reverse them, so the claim's "the vector is still reversed
unconditionally" is false (the two entry names come out in git order `a`,
`b`, while the reversal the claim demands would yield `b`, `a`). -/
theorem c2_no_pom_not_reversed :
    prepare_dir_exploration c2es true = c2es ∧
    (prepare_dir_exploration c2es true).map entryName = ["a", "b"] ∧
    c2es.reverse.map entryName = ["b", "a"] ∧
    prepare_dir_exploration c2es true ≠ c2es.reverse :=
  ⟨rfl, rfl, rfl,
   fun h => absurd (congrArg (List.map entryName) h) (by decide)⟩

/-- C3 counterexample: a state whose `object_map` memoizes for object id 5
a node labelled `bad` (label id 0); attaching it in `handle_maven_module`
under the current entry name `good` (label id 1) succeeds without any
panic, although the memoized node's label differs from the current name —
while `fast_fwd` panics on the same input.  The claim's "every directory
memo-map cache hit ... asserts ... and panics on mismatch" is therefore
false for `handle_maven_module`. -/
theorem c3_maven_memo_hit_no_label_check :
    (c3state.stores.store.get? 0).map (fun n => n.label) = some 0 ∧
    (labelGetOrInsert c3state.stores.labels "good").2 = 1 ∧
    (mavenMemoHitAttach c3state (MavenModuleAcc.new "r") (0, c3md) "good").isSome = true ∧
    fastFwdMemoHit c3state (MavenModuleAcc.new "r") (0, c3md) "good" = none :=
  ⟨rfl, rfl, rfl, rfl⟩

/-- C4 counterexample: a `pom.xml` blob with UTF-8 content on which the POM
handler reports an error is not skipped — the `unwrap()` at
`preprocessed.rs` line 681 panics, aborting the ingestion, both at the blob
step and for the whole `handle_maven_commit` run. -/
theorem c4_pom_error_aborts :
    mavenPomBlobStep gBadPom state0 (MavenModuleAcc.new "") 7 "pom.xml" "bad" true
      = none ∧
    handleMavenCommit gBadPom 100 state0 c4repo [] 13 = none :=
  ⟨rfl, rfl⟩

/-- C5 counterexample: an `.xml` blob (here `a.xml`) that misses the
`object_map_java` memo is not parsed: the blob step leaves the state and
the accumulator unchanged, nothing is inserted into the memo and nothing
is attached — contradicting the claim that every `is_handled` blob missing
the memo is parsed, memoized and attached. -/
theorem c5_xml_miss_not_parsed :
    javaBlobStep gensId state0 (JavaAcc.new "d") 3 "a.xml" "x" true
      = some (state0, JavaAcc.new "d") ∧
    is_handled "a.xml" = true ∧
    lookupA state0.objectMapJava 3 = none ∧
    (JavaAcc.new "d").children = [] :=
  ⟨by decide, by decide, rfl, rfl⟩

/-- C6 counterexample: folding a one-child plain directory whose resolved
reference count is 200 inserts the 8-by-64-bit bloom variant (`>150` arm),
not the 2-by-64-bit one the claim names. -/
theorem c6_refs200_not_2x64 :
    (javaSrcFold gensId c6state 9 c6acc).map
        (fun r => (r.1.stores.store.get? 1).map (fun n => n.bloom))
      = some (some BloomKind.b64x8) ∧
    BloomKind.b64x8 ≠ BloomKind.b64x2 :=
  ⟨rfl, by decide⟩

/-- C10: every node freshly appended to the node store by the Maven-module
fold — the fold shared verbatim by `handle_maven_module` and `fast_fwd` —
is a `MavenDirectory` carrying `BloomSize::Much`, whatever the resolved
reference count; the reference-count tier table appears only in the plain
`Directory` fold of `handle_java_src`. -/
theorem c10_maven_fold_much (g : Gens) (s : State) (oid : Nat)
    (acc : MavenModuleAcc) (s' : State) (r : NodeId × MD)
    (h : mavenFold g s oid acc = some (s', r)) :
    ∀ n ∈ s'.stores.store.drop s.stores.store.length,
      n.bloom = BloomKind.much ∧ n.ty = Ty.MavenDirectory := by
  simp only [mavenFold] at h
  split at h
  · exact absurd h (by simp)
  · split at h
    · cases h
      intro n hn
      rw [List.drop_length] at hn
      simp at hn
    · split at h
      · cases h
        intro n hn
        rw [List.drop_left] at hn
        simp only [List.mem_singleton] at hn
        subst hn
        exact ⟨rfl, rfl⟩
      · exact absurd h (by simp)

/-- C7: for every accumulator reachable by engine pushes from a fresh
`JavaAcc` frame, if `skiped_ana` is set then whatever node the plain
directory fold freshly inserts carries `BloomSize::Much`, regardless of the
reference count: a skipped accumulator necessarily has a child, and the
first arm of the bloom match catches `skiped_ana` before any count
threshold. -/
theorem c7_skipped_ana_much (mx : Nat) (name : String) (ops : List JOp)
    (acc : JavaAcc) (g : Gens) (s : State) (oid : Nat) (s' : State)
    (loc : Local) (sk : Bool)
    (hreach : JavaAcc.applyOps mx (JavaAcc.new name) ops = some acc)
    (hsk : acc.skiped_ana = true)
    (hfold : javaSrcFold g s oid acc = some (s', loc, sk)) :
    ∀ n ∈ s'.stores.store.drop s.stores.store.length, n.bloom = BloomKind.much := by
  have hch : acc.children ≠ [] :=
    javaAcc_applyOps_skiped mx ops (JavaAcc.new name) acc hreach
      (fun hfalse => absurd hfalse (by simp [JavaAcc.new])) hsk
  simp only [javaSrcFold] at hfold
  split at hfold
  · cases hfold
    intro n hn
    rw [List.drop_length] at hn
    simp at hn
  · split at hfold
    · exact absurd (by assumption) hch
    · split at hfold
      · cases hfold
        intro n hn
        rw [List.drop_left] at hn
        simp only [List.mem_singleton] at hn
        subst hn
        simp only [hsk, javaDirBloom_skiped]
      · exact absurd hfold (by simp)

/-- C8: every push of a named child into a directory accumulator —
`MavenModuleAcc`, `JavaAcc` or `CppAcc` — is guarded by the
duplicate-name assertion, so any accumulator reachable from a fresh frame
by engine pushes has a duplicate-free children-name list at fold time. -/
theorem c8_children_names_nodup :
    (∀ (nm : String) (ops : List MOp) (acc : MavenModuleAcc),
        MavenModuleAcc.applyOps (MavenModuleAcc.new nm) ops = some acc →
        acc.childrenNames.Nodup) ∧
    (∀ (mx : Nat) (nm : String) (ops : List JOp) (acc : JavaAcc),
        JavaAcc.applyOps mx (JavaAcc.new nm) ops = some acc →
        acc.childrenNames.Nodup) ∧
    (∀ (nm : String) (ops : List COp) (acc : CppAcc),
        CppAcc.applyOps (CppAcc.new nm) ops = some acc →
        acc.childrenNames.Nodup) := by
  refine ⟨?_, ?_, ?_⟩
  · intro nm ops acc h
    exact mavenAcc_applyOps_nodup ops (MavenModuleAcc.new nm) acc h
      (by simp [MavenModuleAcc.new])
  · intro mx nm ops acc h
    exact javaAcc_applyOps_nodup mx ops (JavaAcc.new nm) acc h
      (by simp [JavaAcc.new])
  · intro nm ops acc h
    exact cppAcc_applyOps_nodup ops (CppAcc.new nm) acc h
      (by simp [CppAcc.new])

theorem preProcessGo_length (g : Gens) (fuel : Nat) (repo : List (Nat × RepoCommit))
    (dirPath : List String) (maven : Bool) :
    ∀ (l : List Nat) (s : State) (cs : List (Nat × CommitRec)) (s' : State)
      (cs' : List (Nat × CommitRec)),
      preProcessGo g fuel repo dirPath maven s cs l = some (s', cs') →
      cs'.length ≤ cs.length + l.length := by
  intro l
  induction l with
  | nil =>
      intro s cs s' cs' h
      simp only [preProcessGo] at h
      cases h
      simp
  | cons oid rest ih =>
      intro s cs s' cs' h
      simp only [preProcessGo] at h
      split at h
      · exact absurd h (by simp)
      · rename_i s1 c _
        calc cs'.length ≤ (insertA cs oid c).length + rest.length := ih s1 _ s' cs' h
          _ ≤ cs.length + 1 + rest.length :=
              Nat.add_le_add_right (insertA_length cs oid c) _
          _ = cs.length + (oid :: rest).length := by simp; omega

/-- C9: `pre_process` and `pre_process_no_maven` truncate the enumerated
commit range with `take(2)`: each call behaves exactly as if the revwalk
held only its first two entries, and inserts at most two entries into the
commits map however long the range is. -/
theorem c9_take_two (g : Gens) (fuel : Nat) (repo : List (Nat × RepoCommit))
    (dirPath : List String) (s : State) (cs : List (Nat × CommitRec))
    (revwalk : List Nat) :
    (preProcess g fuel repo dirPath s cs revwalk
        = preProcess g fuel repo dirPath s cs (revwalk.take 2) ∧
      ∀ s' cs', preProcess g fuel repo dirPath s cs revwalk = some (s', cs') →
        cs'.length ≤ cs.length + 2) ∧
    (preProcessNoMaven g fuel repo dirPath s cs revwalk
        = preProcessNoMaven g fuel repo dirPath s cs (revwalk.take 2) ∧
      ∀ s' cs', preProcessNoMaven g fuel repo dirPath s cs revwalk = some (s', cs') →
        cs'.length ≤ cs.length + 2) := by
  refine ⟨⟨?_, ?_⟩, ⟨?_, ?_⟩⟩
  · simp [preProcess, List.take_take]
  · intro s' cs' h
    have := preProcessGo_length g fuel repo dirPath true (revwalk.take 2) s cs s' cs' h
    have hlen : (revwalk.take 2).length ≤ 2 := by
      exact List.length_take_le 2 revwalk
    omega
  · simp [preProcessNoMaven, List.take_take]
  · intro s' cs' h
    have := preProcessGo_length g fuel repo dirPath false (revwalk.take 2) s cs s' cs' h
    have hlen : (revwalk.take 2).length ≤ 2 := by
      exact List.length_take_le 2 revwalk
    omega

/-- C2 (amended): with the descent path exhausted, if no entry is a blob
named `pom.xml` the prepared vector is the entries unchanged (so popping
yields reversed git order); if the first such blob sits at position `p`,
the entries with positions 0 and `p` swapped are reversed (so it pops
first). -/
theorem c2_pom_priority_order :
    (∀ es : List GEntry, (∀ e ∈ es, isPomBlob e = false) →
        prepare_dir_exploration es true = es) ∧
    (∀ (es : List GEntry) (p : Nat) (e : GEntry),
        es.get? p = some e → isPomBlob e = true →
        (∀ j e', j < p → es.get? j = some e' → isPomBlob e' = false) →
        prepare_dir_exploration es true = (listSwap es 0 p).reverse) := by
  constructor
  · intro es h
    simp [prepare_dir_exploration, findIdx?_none_of_all h]
  · intro es p e hget hp hbefore
    simp [prepare_dir_exploration, findIdx?_first es p e hget hp hbefore]

/-- C3 (amended): on a directory memo hit, the engine asserts that the
memoized node's label equals the current entry name — and panics on
mismatch — in `fast_fwd` and in `handle_java_src`; the `object_map` hit in
`handle_maven_module`, however, attaches the memoized node without any
label check. -/
theorem c3_label_check_fast_fwd_and_java :
    (∀ (s : State) (acc : MavenModuleAcc) (hit : NodeId × MD) (name : String)
        (node : StoredNode),
        s.stores.store.get? hit.1 = some node →
        node.label ≠ (labelGetOrInsert s.stores.labels name).2 →
        fastFwdMemoHit s acc hit name = none) ∧
    (∀ (g : Gens) (s : State) (acc : JavaAcc) (hit : Local × Bool) (name : String)
        (nm : Nat) (node : StoredNode),
        s.stores.labels.findIdx? (fun x => x == name) = some nm →
        s.stores.store.get? hit.1.compressed_node = some node →
        node.label ≠ nm →
        javaTreeMemoHit g s acc hit name = none) ∧
    (∀ (s : State) (acc : MavenModuleAcc) (hit : NodeId × MD) (name : String),
        (labelGetOrInsert s.stores.labels name).2 ∉ acc.childrenNames →
        (mavenMemoHitAttach s acc hit name).isSome = true) := by
  refine ⟨?_, ?_, ?_⟩
  · intro s acc hit name node hget hne
    rw [List.get?_eq_getElem?] at hget
    simp [fastFwdMemoHit, hget, hne]
  · intro g s acc hit name nm node hfind hget hne
    rw [List.get?_eq_getElem?] at hget
    simp [javaTreeMemoHit, hfind, hget, hne]
  · intro s acc hit name hmem
    simp [mavenMemoHitAttach, MavenModuleAcc.push_submoduleG, hmem]

/-- C4 (amended): a file whose parser reports a bad CST never terminates
the ingestion: with the propagate flag set the blob is skipped and the
state is untouched, without it the best-effort tree is generated (shown
for the Java blob step and for `handle_cpp_file`); but a `pom.xml` blob on
which the POM handler returns an error panics via `unwrap()`, aborting the
ingestion. -/
theorem c4_bad_cst_recovery :
    (∀ (g : Gens) (s : State) (acc : JavaAcc) (oid : Nat) (name text : String),
        is_handled name = true →
        lookupA s.objectMapJava oid = none →
        g.javaOk text = false → g.propagate = true →
        javaBlobStep g s acc oid name text true = some (s, acc)) ∧
    (∀ (g : Gens) (st : Stores) (name text : String),
        g.javaOk text = false → g.propagate = false →
        handleJavaFile g st name text = some (g.javaGen st name text)) ∧
    (∀ (g : Gens) (st : Stores) (name text : String),
        g.cppOk text = false →
        handleCppFile g st name text
          = if g.propagate then none else some (g.cppGen st name text)) ∧
    (∀ (g : Gens) (s : State) (acc : MavenModuleAcc) (oid : Nat) (text : String),
        lookupA s.objectMapPom oid = none → g.pomOk text = false →
        mavenPomBlobStep g s acc oid "pom.xml" text true = none) := by
  refine ⟨?_, ?_, ?_, ?_⟩
  · intro g s acc oid name text hh hlook hok hprop
    by_cases hj : strEndsWith name ".java" = true
    · simp [javaBlobStep, hh, hlook, hj, handleJavaFile, hok, hprop]
    · simp [javaBlobStep, hh, hlook, hj]
  · intro g st name text hok hprop
    simp [handleJavaFile, hok, hprop]
  · intro g st name text hok
    simp [handleCppFile, hok]
  · intro g s acc oid text hlook hok
    simp [mavenPomBlobStep, hlook, handlePomFile, hok]

/-- C5 (amended): in `handle_java_src`, a blob missing the
`object_map_java` memo is parsed only when its name ends in `.java` (and
the content is UTF-8): on parser success it is inserted into the memo with
`skipped_ana = false` and attached to the parent accumulator; an `.xml`
blob that misses the memo is skipped unchanged, as is any blob with an
unhandled extension. -/
theorem c5_java_blob_handling :
    (∀ (g : Gens) (s : State) (acc : JavaAcc) (oid : Nat) (name text : String)
        (st1 : Stores) (loc : Local),
        lookupA s.objectMapJava oid = none →
        strEndsWith name ".java" = true →
        handleJavaFile g s.stores name text = some (st1, loc) →
        (labelGetOrInsert st1.labels name).2 ∉ acc.childrenNames →
        javaBlobStep g s acc oid name text true
          = some ({ s with
                stores := { labels := (labelGetOrInsert st1.labels name).1,
                            store := st1.store },
                objectMapJava := insertA s.objectMapJava oid (loc, false) },
              acc.push (labelGetOrInsert st1.labels name).2 loc g.maxRefs) ∧
        lookupA (insertA s.objectMapJava oid (loc, false)) oid = some (loc, false)) ∧
    (∀ (g : Gens) (s : State) (acc : JavaAcc) (oid : Nat) (name text : String)
        (u : Bool),
        strEndsWith name ".xml" = true → strEndsWith name ".java" = false →
        lookupA s.objectMapJava oid = none →
        javaBlobStep g s acc oid name text u = some (s, acc)) ∧
    (∀ (g : Gens) (s : State) (acc : JavaAcc) (oid : Nat) (name text : String)
        (u : Bool),
        is_handled name = false →
        javaBlobStep g s acc oid name text u = some (s, acc)) := by
  refine ⟨?_, ?_, ?_⟩
  · intro g s acc oid name text st1 loc hlook hj hgen hmem
    constructor
    · simp [javaBlobStep, is_handled, hj, hlook, hgen, JavaAcc.pushG, hmem]
    · exact lookupA_insertA_self s.objectMapJava oid (loc, false)
  · intro g s acc oid name text u hx hj hlook
    simp [javaBlobStep, is_handled, hx, hj, hlook]
  · intro g s acc oid name text u hh
    simp [javaBlobStep, hh]

/-- C6 (amended): at the fold of a plain directory with at least one child
and `skipped_ana` false, the vacant insertion carries the bloom variant of
the resolved reference count tier table: a count of 9 selects the 32-bit
tier, a count of 200 selects the 8-by-64-bit tier (the `>150` arm), and a
count of 3000 selects `BloomSize::Much`. -/
theorem c6_bloom_tiers (g : Gens) (s : State) (oid : Nat) (acc : JavaAcc)
    (hsk : acc.skiped_ana = false) (hne : acc.children ≠ [])
    (hvac : prepareInsertion s.stores.store Ty.Directory
        (labelGetOrInsert s.stores.labels acc.name).2 acc.children = none)
    (hlen : acc.childrenNames.length = acc.children.length) :
    (javaSrcFold g s oid acc).map
        (fun r => r.1.stores.store.drop s.stores.store.length)
      = some [{ ty := Ty.Directory,
                label := (labelGetOrInsert s.stores.labels acc.name).2,
                childrenNames := some acc.childrenNames,
                children := some acc.children,
                bloom := javaDirBloom false
                  (if acc.ana < g.maxRefs then g.resolveAna acc.ana else acc.ana) }] ∧
    javaDirBloom false 9 = BloomKind.b32 ∧
    javaDirBloom false 200 = BloomKind.b64x8 ∧
    javaDirBloom false 3000 = BloomKind.much := by
  refine ⟨?_, by decide, by decide, by decide⟩
  simp only [javaSrcFold, hvac]
  split
  · rename_i heq
    exact absurd heq hne
  · rw [if_pos hlen]
    simp [hsk, List.drop_left]

theorem c2_pom_priority_order_witness :
    prepare_dir_exploration c2es true = c2es ∧
    prepare_dir_exploration c2es3 true = (listSwap c2es3 0 1).reverse :=
  ⟨c2_pom_priority_order.1 c2es
      (by intro e he; fin_cases he <;> rfl),
   c2_pom_priority_order.2 c2es3 1 (GEntry.blobE 9 "pom.xml" "" true) rfl rfl
      (by
        intro j e' hj hg
        interval_cases j
        cases hg
        rfl)⟩

theorem c3_label_check_witness :
    fastFwdMemoHit c3state (MavenModuleAcc.new "r") (0, c3md) "good" = none ∧
    javaTreeMemoHit gensId c3state (JavaAcc.new "r") (c3loc, false) "good" = none ∧
    (mavenMemoHitAttach c3state (MavenModuleAcc.new "r") (0, c3md) "good").isSome
      = true :=
  ⟨c3_label_check_fast_fwd_and_java.1 c3state (MavenModuleAcc.new "r") (0, c3md)
      "good"
      { ty := .MavenDirectory, label := 0, childrenNames := some [],
        children := some [], bloom := .much }
      rfl (by decide),
   c3_label_check_fast_fwd_and_java.2.1 gensId c3state (JavaAcc.new "r")
      (c3loc, false) "good" 1
      { ty := .MavenDirectory, label := 0, childrenNames := some [],
        children := some [], bloom := .much }
      rfl rfl (by decide),
   c3_label_check_fast_fwd_and_java.2.2 c3state (MavenModuleAcc.new "r")
      (0, c3md) "good" (by decide)⟩

theorem c4_bad_cst_recovery_witness :
    javaBlobStep gBadJava state0 (JavaAcc.new "d") 3 "a.java" "zz" true
      = some (state0, JavaAcc.new "d") ∧
    handleJavaFile gBadJavaKeep state0.stores "a.java" "zz"
      = some (gBadJavaKeep.javaGen state0.stores "a.java" "zz") ∧
    handleCppFile gBadCpp state0.stores "a.cpp" "zz"
      = (if gBadCpp.propagate then none
         else some (gBadCpp.cppGen state0.stores "a.cpp" "zz")) ∧
    mavenPomBlobStep gBadPom state0 (MavenModuleAcc.new "") 7 "pom.xml" "bad" true
      = none :=
  ⟨c4_bad_cst_recovery.1 gBadJava state0 (JavaAcc.new "d") 3 "a.java" "zz"
      (by decide) rfl rfl rfl,
   c4_bad_cst_recovery.2.1 gBadJavaKeep state0.stores "a.java" "zz" rfl rfl,
   c4_bad_cst_recovery.2.2.1 gBadCpp state0.stores "a.cpp" "zz" rfl,
   c4_bad_cst_recovery.2.2.2 gBadPom state0 (MavenModuleAcc.new "") 7 "bad" rfl rfl⟩

theorem c5_java_blob_handling_witness :
    (javaBlobStep gensId state0 (JavaAcc.new "d") 3 "a.java" "t" true
        = some ({ state0 with
              stores := { labels := (labelGetOrInsert c5st1.labels "a.java").1,
                          store := c5st1.store },
              objectMapJava := insertA state0.objectMapJava 3 (c5loc, false) },
            (JavaAcc.new "d").push (labelGetOrInsert c5st1.labels "a.java").2 c5loc
              gensId.maxRefs) ∧
      lookupA (insertA state0.objectMapJava 3 (c5loc, false)) 3
        = some (c5loc, false)) ∧
    javaBlobStep gensId state0 (JavaAcc.new "d") 4 "b.xml" "t" true
      = some (state0, JavaAcc.new "d") ∧
    javaBlobStep gensId state0 (JavaAcc.new "d") 5 "c.txt" "t" true
      = some (state0, JavaAcc.new "d") :=
  ⟨c5_java_blob_handling.1 gensId state0 (JavaAcc.new "d") 3 "a.java" "t"
      c5st1 c5loc rfl (by decide) (by decide) (by decide),
   c5_java_blob_handling.2.1 gensId state0 (JavaAcc.new "d") 4 "b.xml" "t" true
      (by decide) (by decide) rfl,
   c5_java_blob_handling.2.2 gensId state0 (JavaAcc.new "d") 5 "c.txt" "t" true
      (by decide)⟩

theorem c6_bloom_tiers_witness :
    (javaSrcFold gensId c6state 9 c6acc).map
        (fun r => r.1.stores.store.drop c6state.stores.store.length)
      = some [{ ty := Ty.Directory,
                label := (labelGetOrInsert c6state.stores.labels c6acc.name).2,
                childrenNames := some c6acc.childrenNames,
                children := some c6acc.children,
                bloom := javaDirBloom false
                  (if c6acc.ana < gensId.maxRefs then gensId.resolveAna c6acc.ana
                   else c6acc.ana) }] ∧
    javaDirBloom false 9 = BloomKind.b32 ∧
    javaDirBloom false 200 = BloomKind.b64x8 ∧
    javaDirBloom false 3000 = BloomKind.much :=
  c6_bloom_tiers gensId c6state 9 c6acc rfl (by decide) (by decide) (by decide)

theorem c7_skipped_ana_much_witness :
    node7.bloom = BloomKind.much :=
  c7_skipped_ana_much 1 "d" ops7 acc7 gensId state0 77 s7 loc7 true
    (by decide) rfl (by decide) node7 (by decide)

theorem c8_children_names_nodup_witness :
    accM.childrenNames.Nodup ∧ accJ.childrenNames.Nodup ∧
    accC.childrenNames.Nodup :=
  ⟨c8_children_names_nodup.1 "r" opsM accM (by decide),
   c8_children_names_nodup.2.1 10 "r" opsJ accJ (by decide),
   c8_children_names_nodup.2.2 "r" opsC accC (by decide)⟩

theorem c9_take_two_witness :
    c9csW.length ≤ ([] : List (Nat × CommitRec)).length + 2 :=
  (c9_take_two gensId 50 c9repo [] state0 [] [1, 1, 1]).1.2 c9sW c9csW (by decide)

theorem c10_maven_fold_much_witness :
    node10.bloom = BloomKind.much ∧ node10.ty = Ty.MavenDirectory :=
  c10_maven_fold_much gensId state0 42 (MavenModuleAcc.new "m") s10 (0, md10)
    (by decide) node10 (by decide)

end HyperAST
